import Mathlib

/-!
Shallow embedding of the favlens favicon-similarity scanner.

Source layout:
* `main.go` (worker pool, job construction, result aggregation)
* `pkg/ollama/ollama.go` (`CheckModelExists`, `DownloadImageAsBase64`,
  `CompareFaviconsChatAPI`)
* `pkg/arguments` (CLI flags; out of scope here)

Go strings are modelled as Lean `String` (with explicit char-list versions
of the `strings` package helpers actually used by the source), machine
bytes as `Nat` below 256, and network I/O as explicit outcome values fed
to the embedded functions.
-/

namespace Favlens

/-! ## Char-level models of the Go `strings` helpers used by the source -/

/-- Model of `strings.HasPrefix` at the char-list level (`p` a prefix of `l`). -/
def isPrefixOfChars : List Char → List Char → Bool
  | [], _ => true
  | _ :: _, [] => false
  | a :: as, b :: bs => if a = b then isPrefixOfChars as bs else false

/-- Model of `strings.Contains` at the char-list level: some suffix of `l`
starts with `sub`. -/
def containsChars : List Char → List Char → Bool
  | [], sub => isPrefixOfChars sub []
  | c :: rest, sub => isPrefixOfChars sub (c :: rest) || containsChars rest sub

/-- Model of `strings.Contains s sub`. -/
def goContains (s sub : String) : Bool := containsChars s.data sub.data

/-- Model of `strings.HasSuffix s suffix`. -/
def goHasSuffix (s suffix : String) : Bool :=
  if suffix.data.length ≤ s.data.length then
    decide (s.data.drop (s.data.length - suffix.data.length) = suffix.data)
  else false

/-- Model of `strings.TrimSuffix s suffix`: drop the suffix when present,
otherwise return `s` unchanged. -/
def goTrimSuffix (s suffix : String) : String :=
  if goHasSuffix s suffix then ⟨s.data.take (s.data.length - suffix.data.length)⟩
  else s

/-- White-space test of Go's `unicode.IsSpace` restricted to the code points
the tool ever meets (ASCII controls, space, NEL, NBSP). -/
def isGoSpace (c : Char) : Bool :=
  c = ' ' || c = '\t' || c = '\n' || c = '\x0b' || c = '\x0c' || c = '\r' ||
    c = Char.ofNat 133 || c = Char.ofNat 160

/-- Drop leading white space from a char list. -/
def trimLeading : List Char → List Char
  | [] => []
  | c :: rest => if isGoSpace c then trimLeading rest else c :: rest

/-- Model of `strings.TrimSpace`: drop white space from both ends. -/
def goTrimSpace (s : String) : String :=
  ⟨(trimLeading (trimLeading s.data).reverse).reverse⟩

/-- Split a char list at every newline character (model of
`strings.Split · "\n"`). -/
def splitLinesList : List Char → List (List Char)
  | [] => [[]]
  | c :: rest =>
    if c = '\n' then [] :: splitLinesList rest
    else
      match splitLinesList rest with
      | [] => [[c]]
      | l :: ls => (c :: l) :: ls

/-- Model of `strings.Split s "\n"`. -/
def goSplitNewline (s : String) : List String :=
  (splitLinesList s.data).map String.mk

/-! ## `CheckModelExists` (pkg/ollama/ollama.go lines 112-135) -/

/-- Predicate of the `if` inside the model loop of `CheckModelExists`:
`model.Name == o.Model ||
 (strings.HasSuffix(model.Name, ":latest") && strings.TrimSuffix(model.Name, ":latest") == o.Model) ||
 (strings.HasSuffix(o.Model, ":latest") && strings.TrimSuffix(o.Model, ":latest") == strings.TrimSuffix(model.Name, ":latest"))`. -/
def modelNameMatches (name config : String) : Bool :=
  decide (name = config) ||
    (goHasSuffix name ":latest" && decide (goTrimSuffix name ":latest" = config)) ||
    (goHasSuffix config ":latest" &&
      decide (goTrimSuffix config ":latest" = goTrimSuffix name ":latest"))

/-- Outcome of the model-presence loop of `CheckModelExists` over a parsed
`/api/tags` model-name list: `modelFound` is set iff some listed name
matches the configured model. -/
def checkModelFound (config : String) (names : List String) : Bool :=
  names.any (fun n => modelNameMatches n config)

/-- Modelled from the spec's words for the refinement comparison of claim C4:
an available name matches the configured name when they are equal exactly, or
equal after stripping a ":latest" suffix from either side. -/
def specModelMatches (name config : String) : Bool :=
  decide (name = config) ||
    decide (goTrimSuffix name ":latest" = config) ||
    decide (goTrimSuffix config ":latest" = name)

/-- Modelled from the spec's words: the availability check succeeds iff some
available name spec-matches the configured one. -/
def specModelAvailable (config : String) (names : List String) : Bool :=
  names.any (fun n => specModelMatches n config)

/-! ## Job construction (main.go lines 307, 327-352) -/

/-- Job record sent on the `jobs` channel (`type Job struct { URL string }`). -/
structure Job where
  URL : String
deriving DecidableEq, Repr

/-- Favicon-path heuristic of main.go lines 334-347: append `favicon.ico`
(with a separating `/` unless the URL already ends in one) whenever the URL
carries none of the six image-file extensions and does not already contain
the substring "favicon". -/
def applyFaviconHeuristic (url : String) : String :=
  if !goHasSuffix url ".ico" && !goHasSuffix url ".png" &&
      !goHasSuffix url ".jpg" && !goHasSuffix url ".jpeg" &&
      !goHasSuffix url ".gif" && !goHasSuffix url ".svg" &&
      !goContains url "favicon" then
    if goHasSuffix url "/" then url ++ "favicon.ico"
    else url ++ "/favicon.ico"
  else url

/-- Dispatch loop of main.go lines 327-351: per line, trim white space, skip
the line when blank, otherwise enqueue a job for the heuristic-adjusted URL. -/
def jobsFromLines : List String → List Job
  | [] => []
  | l :: rest =>
    if goTrimSpace l = "" then jobsFromLines rest
    else ⟨applyFaviconHeuristic (goTrimSpace l)⟩ :: jobsFromLines rest

/-- Full job construction of main.go line 307 plus the dispatch loop:
`strings.Split(strings.TrimSpace(content), "\n")`, then per-line processing. -/
def buildJobs (content : String) : List Job :=
  jobsFromLines (goSplitNewline (goTrimSpace content))

/-! ## Minimal model of Go encoding/json as used by `CompareFaviconsChatAPI`
and the streamed /api/chat response handling (ollama.go lines 257-295) -/

inductive Json where
  | jnull
  | jbool (b : Bool)
  | jnum (raw : String)
  | jstr (s : String)
  | jarr (elems : List Json)
  | jobj (fields : List (String × Json))

def quoteChar : Char := Char.ofNat 34
def lbraceChar : Char := Char.ofNat 123
def rbraceChar : Char := Char.ofNat 125

def skipWs : List Char → List Char
  | [] => []
  | c :: rest =>
    if c = ' ' || c = '\t' || c = '\n' || c = '\r' then skipWs rest else c :: rest

def hexVal (c : Char) : Option Nat :=
  if '0' ≤ c ∧ c ≤ '9' then some (c.toNat - 48)
  else if 'a' ≤ c ∧ c ≤ 'f' then some (c.toNat - 97 + 10)
  else if 'A' ≤ c ∧ c ≤ 'F' then some (c.toNat - 65 + 10)
  else none

def consStr (c : Char) (r : Option (List Char × List Char)) :
    Option (List Char × List Char) :=
  r.map (fun p => (c :: p.1, p.2))

def parseStringBody : List Char → Option (List Char × List Char)
  | [] => none
  | c :: rest =>
    if c = quoteChar then some ([], rest)
    else if c = '\\' then
      match rest with
      | [] => none
      | e :: rest2 =>
        if e = quoteChar then consStr quoteChar (parseStringBody rest2)
        else if e = '\\' then consStr '\\' (parseStringBody rest2)
        else if e = '/' then consStr '/' (parseStringBody rest2)
        else if e = 'b' then consStr (Char.ofNat 8) (parseStringBody rest2)
        else if e = 'f' then consStr (Char.ofNat 12) (parseStringBody rest2)
        else if e = 'n' then consStr '\n' (parseStringBody rest2)
        else if e = 'r' then consStr '\r' (parseStringBody rest2)
        else if e = 't' then consStr '\t' (parseStringBody rest2)
        else if e = 'u' then
          match rest2 with
          | h1 :: h2 :: h3 :: h4 :: rest3 =>
            match hexVal h1, hexVal h2, hexVal h3, hexVal h4 with
            | some a, some b, some g, some d =>
              consStr (Char.ofNat (a * 4096 + b * 256 + g * 16 + d)) (parseStringBody rest3)
            | _, _, _, _ => none
          | _ => none
        else none
    else if c.toNat < 32 then none
    else consStr c (parseStringBody rest)

def takeDigits : List Char → List Char × List Char
  | [] => ([], [])
  | c :: rest =>
    if c.isDigit then ((c :: (takeDigits rest).1), (takeDigits rest).2)
    else ([], c :: rest)

def parseIntDigits : List Char → Option (List Char × List Char)
  | [] => none
  | c :: rest =>
    if c = '0' then some (['0'], rest)
    else if c.isDigit then some (c :: (takeDigits rest).1, (takeDigits rest).2)
    else none

def parseFracPart (cs : List Char) : Option (List Char × List Char) :=
  match cs with
  | c :: rest =>
    if c = '.' then
      match rest with
      | d :: _ =>
        if d.isDigit then some ('.' :: (takeDigits rest).1, (takeDigits rest).2)
        else none
      | [] => none
    else some ([], cs)
  | [] => some ([], [])

def parseExpPart (cs : List Char) : Option (List Char × List Char) :=
  match cs with
  | e :: rest =>
    if e = 'e' || e = 'E' then
      match rest with
      | s :: rest2 =>
        if s = '+' || s = '-' then
          match rest2 with
          | d :: _ =>
            if d.isDigit then some (e :: s :: (takeDigits rest2).1, (takeDigits rest2).2)
            else none
          | [] => none
        else if s.isDigit then some (e :: (takeDigits rest).1, (takeDigits rest).2)
        else none
      | [] => none
    else some ([], cs)
  | [] => some ([], [])

def parseNumber (cs : List Char) : Option (List Char × List Char) :=
  let p := match cs with
    | c :: rest => if c = '-' then (['-'], rest) else (([] : List Char), cs)
    | [] => ([], [])
  match parseIntDigits p.2 with
  | none => none
  | some (ip, cs2) =>
    match parseFracPart cs2 with
    | none => none
    | some (fp, cs3) =>
      match parseExpPart cs3 with
      | none => none
      | some (ep, cs4) => some (p.1 ++ ip ++ fp ++ ep, cs4)

def parseLiteral (lit : List Char) (cs : List Char) : Option (List Char) :=
  if isPrefixOfChars lit cs then some (cs.drop lit.length) else none

mutual

def parseVal : Nat → List Char → Option (Json × List Char)
  | 0, _ => none
  | fuel + 1, cs =>
    match skipWs cs with
    | [] => none
    | c :: rest =>
      if c = quoteChar then
        match parseStringBody rest with
        | some (s, rest2) => some (.jstr ⟨s⟩, rest2)
        | none => none
      else if c = lbraceChar then
        match skipWs rest with
        | d :: rest2 =>
          if d = rbraceChar then some (.jobj [], rest2)
          else
            match parseMembers fuel (d :: rest2) with
            | some (fs, rest3) => some (.jobj fs, rest3)
            | none => none
        | [] => none
      else if c = '[' then
        match skipWs rest with
        | d :: rest2 =>
          if d = ']' then some (.jarr [], rest2)
          else
            match parseElems fuel (d :: rest2) with
            | some (es, rest3) => some (.jarr es, rest3)
            | none => none
        | [] => none
      else if c = 't' then
        match parseLiteral ['r', 'u', 'e'] rest with
        | some rest2 => some (.jbool true, rest2)
        | none => none
      else if c = 'f' then
        match parseLiteral ['a', 'l', 's', 'e'] rest with
        | some rest2 => some (.jbool false, rest2)
        | none => none
      else if c = 'n' then
        match parseLiteral ['u', 'l', 'l'] rest with
        | some rest2 => some (.jnull, rest2)
        | none => none
      else if c = '-' || c.isDigit then
        match parseNumber (c :: rest) with
        | some (raw, rest2) => some (.jnum ⟨raw⟩, rest2)
        | none => none
      else none

def parseMembers : Nat → List Char → Option (List (String × Json) × List Char)
  | 0, _ => none
  | fuel + 1, cs =>
    match skipWs cs with
    | c :: rest =>
      if c = quoteChar then
        match parseStringBody rest with
        | some (key, rest2) =>
          match skipWs rest2 with
          | d :: rest3 =>
            if d = ':' then
              match parseVal fuel rest3 with
              | some (v, rest4) =>
                match skipWs rest4 with
                | e :: rest5 =>
                  if e = ',' then
                    match parseMembers fuel rest5 with
                    | some (fs, rest6) => some ((⟨key⟩, v) :: fs, rest6)
                    | none => none
                  else if e = rbraceChar then some ([(⟨key⟩, v)], rest5)
                  else none
                | [] => none
              | none => none
            else none
          | [] => none
        | none => none
      else none
    | [] => none

def parseElems : Nat → List Char → Option (List Json × List Char)
  | 0, _ => none
  | fuel + 1, cs =>
    match parseVal fuel cs with
    | some (v, rest) =>
      match skipWs rest with
      | e :: rest2 =>
        if e = ',' then
          match parseElems fuel rest2 with
          | some (es, rest3) => some (v :: es, rest3)
          | none => none
        else if e = ']' then some ([v], rest2)
        else none
      | [] => none
    | none => none

end

def jsonParse (s : String) : Option Json :=
  match parseVal (s.data.length + 1) s.data with
  | some (v, rest) => if skipWs rest = [] then some v else none
  | none => none

/-! ## Streamed /api/chat response handling (ollama.go lines 246-296) -/

/-- Result of one chunk line as `json.Unmarshal(line, &map[string]any)` sees
it: `none` when the line is not a valid JSON object document, otherwise the
object's field list (later duplicate keys win, as in a Go map). -/
def parseChunk (line : String) : Option (List (String × Json)) :=
  match jsonParse line with
  | some (.jobj fields) => some fields
  | _ => none

/-- Go map lookup over the parsed field list: the last binding of a key wins. -/
def lookupField (fields : List (String × Json)) (key : String) : Option Json :=
  fields.foldl (fun acc f => if f.1 = key then some f.2 else acc) none

/-- Extraction `chunk["message"].(map[string]any)["content"].(string)` with
empty string when any step fails its type assertion. -/
def chunkContent (fields : List (String × Json)) : String :=
  match lookupField fields "message" with
  | some (.jobj mfields) =>
    match lookupField mfields "content" with
    | some (.jstr s) => s
    | _ => ""
  | _ => ""

/-- Extraction `done, ok := chunk["done"].(bool); ok && done`. -/
def chunkDone (fields : List (String × Json)) : Bool :=
  match lookupField fields "done" with
  | some (.jbool b) => b
  | _ => false

/-- Line loop of `CompareFaviconsChatAPI` (ollama.go lines 260-283): trim each
line, skip blanks, skip lines that fail to parse as a JSON object, append the
message content of parsed chunks, and break right after a chunk whose `done`
field is `true`. -/
def accumulateStream : List String → String
  | [] => ""
  | line :: rest =>
    if goTrimSpace line = "" then accumulateStream rest
    else
      match parseChunk (goTrimSpace line) with
      | none => accumulateStream rest
      | some fields =>
        if chunkDone fields then chunkContent fields
        else chunkContent fields ++ accumulateStream rest

/-- Verdict rule of ollama.go line 290: `strings.Contains(answer, "Yes")`. -/
def classifyAnswer (answer : String) : Bool := goContains answer "Yes"

/-- Outcome of the POST to /api/chat as observed by the client: either the
request itself failed in transport (`DoTimeout` returned an error), or a
response with some status code and body arrived. -/
inductive ChatOutcome where
  | transportErr (msg : String)
  | response (status : Nat) (body : String)

/-- Tail of `CompareFaviconsChatAPI` after the request is issued (ollama.go
lines 246-296): a transport error is returned as-is; any arrived response —
its status code is never inspected — has its body split on newlines, fed to
the line loop, and classified, with a nil error. -/
def compareFaviconsChatAPI (out : ChatOutcome) : Except String Bool :=
  match out with
  | .transportErr e => .error e
  | .response _status body =>
    .ok (classifyAnswer (accumulateStream (goSplitNewline body)))

/-! ## Base64 (encoding/base64 StdEncoding, used by `DownloadImageAsBase64`) -/

/-- Character of the standard base64 alphabet for a 6-bit group. -/
def b64Char (n : Nat) : Char :=
  if n < 26 then Char.ofNat (65 + n)
  else if n < 52 then Char.ofNat (97 + (n - 26))
  else if n < 62 then Char.ofNat (48 + (n - 52))
  else if n = 62 then '+'
  else '/'

/-- Index of a character in the standard base64 alphabet. -/
def b64Index (c : Char) : Option Nat :=
  if 'A' ≤ c ∧ c ≤ 'Z' then some (c.toNat - 65)
  else if 'a' ≤ c ∧ c ≤ 'z' then some (c.toNat - 97 + 26)
  else if '0' ≤ c ∧ c ≤ '9' then some (c.toNat - 48 + 52)
  else if c = '+' then some 62
  else if c = '/' then some 63
  else none

/-- Standard base64 encoding of a byte list (bytes are `Nat`s below 256),
three bytes per four output characters with `=` padding. -/
def base64EncodeList : List Nat → List Char
  | [] => []
  | [a] => [b64Char (a / 4), b64Char (a % 4 * 16), '=', '=']
  | [a, b] => [b64Char (a / 4), b64Char (a % 4 * 16 + b / 16), b64Char (b % 16 * 4), '=']
  | a :: b :: c :: rest =>
    b64Char (a / 4) :: b64Char (a % 4 * 16 + b / 16) ::
      b64Char (b % 16 * 4 + c / 64) :: b64Char (c % 64) :: base64EncodeList rest

/-- Model of `base64.StdEncoding.EncodeToString`. -/
def base64Encode (bs : List Nat) : String := ⟨base64EncodeList bs⟩

/-- Standard base64 decoding, inverse of `base64EncodeList`. -/
def base64DecodeList : List Char → Option (List Nat)
  | [] => some []
  | c1 :: c2 :: c3 :: c4 :: rest =>
    match b64Index c1, b64Index c2 with
    | some g1, some g2 =>
      if c3 = '=' then
        if c4 = '=' ∧ rest = [] then some [g1 * 4 + g2 / 16] else none
      else
        match b64Index c3 with
        | some g3 =>
          if c4 = '=' then
            if rest = [] then some [g1 * 4 + g2 / 16, g2 % 16 * 16 + g3 / 4] else none
          else
            match b64Index c4 with
            | some g4 =>
              (base64DecodeList rest).map
                (fun bs => (g1 * 4 + g2 / 16) :: (g2 % 16 * 16 + g3 / 4) :: (g3 % 4 * 64 + g4) :: bs)
            | none => none
        | none => none
    | _, _ => none
  | _ => none

/-- Model of `base64.StdEncoding.DecodeString`. -/
def base64Decode (s : String) : Option (List Nat) := base64DecodeList s.data

/-! ## `DownloadImageAsBase64` (ollama.go lines 144-213) -/

/-- Outcome of the GET for an image URL: transport failure from `DoTimeout`,
or a response with a status code and raw body bytes. -/
inductive ImgFetchOutcome where
  | transportErr (msg : String)
  | response (status : Nat) (body : List Nat)

/-- Abstraction of Go's registered image codecs as the source uses them:
`decode` is `image.Decode` (format name and decoded pixels, or a failure),
`pngEncode` is `png.Encode` on decoded pixels. The pixel type is opaque to
the source, so it is a type parameter here. -/
structure ImageCodec (Img : Type) where
  decode : List Nat → Option (String × Img)
  pngEncode : Img → List Nat

/-- Body of `DownloadImageAsBase64` (ollama.go lines 144-213) after the GET
outcome is known: propagate a transport error, fail on any status other than
200 quoting the code, fail when the bytes decode as no known image, reuse the
fetched bytes verbatim when the detected format is "png", otherwise re-encode
the decoded pixels as PNG; finally base64-encode the chosen PNG bytes. -/
def downloadImageAsBase64 {Img : Type} (codec : ImageCodec Img) (url : String)
    (out : ImgFetchOutcome) : Except String String :=
  match out with
  | .transportErr e => .error ("error fetching " ++ url ++ ": " ++ e)
  | .response status data =>
    if status ≠ 200 then .error ("bad status for " ++ url ++ ": " ++ toString status)
    else
      match codec.decode data with
      | none => .error ("error decoding image from " ++ url)
      | some (format, img) =>
        if format = "png" then .ok (base64Encode data)
        else .ok (base64Encode (codec.pngEncode img))

/-! ## Worker pool (main.go lines 183-226 and 313-364) -/

/-- Result record sent on the `results` channel
(`type Result struct { URL string; Match bool; Err error }`). -/
structure Result where
  URL : String
  Match : Bool
  Err : Option String
deriving DecidableEq, Repr

/-- Environment a worker runs against: the image codecs, the per-URL image
GET outcome, and the /api/chat outcome as a function of the two base64
images sent. -/
structure Env (Img : Type) where
  codec : ImageCodec Img
  fetch : String → ImgFetchOutcome
  chat : String → String → ChatOutcome

/-- One iteration of the worker loop (main.go lines 196-221): download the
target icon, on failure emit a failed result and move on; otherwise compare
against the shared base icon and emit the verdict with any compare error. -/
def processJob {Img : Type} (env : Env Img) (baseIcon : String) (j : Job) : Result :=
  match downloadImageAsBase64 env.codec j.URL (env.fetch j.URL) with
  | .error e => ⟨j.URL, false, some e⟩
  | .ok targetIcon =>
    match compareFaviconsChatAPI (env.chat baseIcon targetIcon) with
    | .error e => ⟨j.URL, false, some e⟩
    | .ok m => ⟨j.URL, m, none⟩

/-- A whole worker (main.go lines 188-226): drain the assigned jobs in order,
emitting one result per job. -/
def workerRun {Img : Type} (env : Env Img) (baseIcon : String) (jobs : List Job) :
    List Result :=
  jobs.map (processJob env baseIcon)

/-- The pool (main.go lines 313-364): each dispatched job is consumed by
exactly one worker, so a schedule is a partition of the job list into one
bag per worker; the result stream is the concatenation of the workers'
emissions in some arrival order. -/
def poolRun {Img : Type} (env : Env Img) (baseIcon : String)
    (schedule : List (List Job)) : List Result :=
  (schedule.map (workerRun env baseIcon)).flatten

/-! ## Result aggregation and output file (main.go lines 366-407) -/

/-- Model of `os.Create` (main.go line 369): the named file is created anew —
any pre-existing content is truncated away. -/
def createOutputFile (_preExisting : String) : String := ""

/-- One step of the result loop (main.go lines 385-407): results carrying an
error are counted and skipped; matched results have their URL written to the
output file as one `Fprintln` line. -/
def aggregateStep (file : String) (r : Result) : String :=
  match r.Err with
  | some _ => file
  | none => if r.Match then file ++ r.URL ++ "\n" else file

/-- Output-file content after the result loop consumes the whole stream. -/
def writeMatches (file : String) (results : List Result) : String :=
  results.foldl aggregateStep file

/-- Output-file content of a full run with `-o` configured: `os.Create`, then
the result loop (main.go lines 366-407). -/
def runOutputFile (preExisting : String) (results : List Result) : String :=
  writeMatches (createOutputFile preExisting) results

/-! ## Auxiliary definitions used by the statements below -/

/-- Concatenation of a list of strings in order. -/
def concatStrings : List String → String
  | [] => ""
  | s :: rest => s ++ concatStrings rest

/-- Content contributed by a single stream line: the message content of its
parsed chunk, or the empty string when the line is blank or unparseable. -/
def contentOf (l : String) : String :=
  match parseChunk (goTrimSpace l) with
  | some fields => chunkContent fields
  | none => ""

/-- Whether a single stream line is a parsed chunk carrying `done: true`. -/
def lineDone (l : String) : Bool :=
  match parseChunk (goTrimSpace l) with
  | some fields => chunkDone fields
  | none => false

/-- First line of the spec's stream-parsing scenario. -/
def c2Line1 : String := "\x7b\"message\":\x7b\"content\":\"Ye\"\x7d\x7d"

/-- Second (malformed) line of the spec's stream-parsing scenario. -/
def c2Line2 : String := "NOT-JSON"

/-- Third (terminating) line of the spec's stream-parsing scenario. -/
def c2Line3 : String := "\x7b\"message\":\x7b\"content\":\"s\"\x7d,\"done\":true\x7d"

/-- Whole body of the spec's stream-parsing scenario. -/
def c2Body : String := c2Line1 ++ "\n" ++ c2Line2 ++ "\n" ++ c2Line3 ++ "\nextra-garbage"

/-- Two-chunk stream body carrying no `done` record. -/
def c10Body : String :=
  "\x7b\"message\":\x7b\"content\":\"No\"\x7d\x7d\n\x7b\"message\":\x7b\"content\":\"pe\"\x7d\x7d"

/-! ## Supporting lemmas -/

theorem isPrefixOfChars_iff (p l : List Char) :
    isPrefixOfChars p l = true ↔ ∃ t, l = p ++ t := by
  induction p generalizing l with
  | nil => simp [isPrefixOfChars]
  | cons a as ih =>
    cases l with
    | nil => simp [isPrefixOfChars]
    | cons b bs =>
      by_cases h : a = b
      · subst h
        simp [isPrefixOfChars, ih]
      · simp only [isPrefixOfChars, if_neg h]
        constructor
        · intro hf; exact absurd hf (by simp)
        · rintro ⟨t, ht⟩
          exact absurd (List.cons.injEq .. ▸ ht).1 (fun hb => h hb.symm)

theorem containsChars_iff (l sub : List Char) :
    containsChars l sub = true ↔ ∃ pre post, l = pre ++ sub ++ post := by
  induction l with
  | nil =>
    simp only [containsChars, isPrefixOfChars_iff]
    constructor
    · rintro ⟨t, ht⟩
      exact ⟨[], t, ht⟩
    · rintro ⟨pre, post, hp⟩
      have hp' : pre = [] ∧ sub = [] ∧ post = [] := by
        have := hp.symm
        simp only [List.append_eq_nil] at this
        exact ⟨this.1.1, this.1.2, this.2⟩
      exact ⟨[], by simp [hp'.2.1]⟩
  | cons c rest ih =>
    simp only [containsChars, Bool.or_eq_true, isPrefixOfChars_iff, ih]
    constructor
    · rintro (⟨t, ht⟩ | ⟨pre, post, hp⟩)
      · exact ⟨[], t, by simpa using ht⟩
      · exact ⟨c :: pre, post, by simp [hp]⟩
    · rintro ⟨pre, post, hp⟩
      cases pre with
      | nil => exact Or.inl ⟨post, by simpa using hp⟩
      | cons d pre' =>
        right
        have := (List.cons.injEq ..) ▸ hp
        exact ⟨pre', post, by simpa using this.2⟩

theorem b64Index_b64Char : ∀ n, n < 64 → b64Index (b64Char n) = some n := by decide

theorem b64Char_ne_pad : ∀ n, n < 64 → b64Char n ≠ '=' := by decide

theorem base64_roundtrip (bs : List Nat) :
    (∀ x ∈ bs, x < 256) → base64DecodeList (base64EncodeList bs) = some bs := by
  induction bs using base64EncodeList.induct with
  | case1 => intro _; rfl
  | case2 a =>
    intro h
    have ha : a < 256 := h a (by simp)
    have h1 : a / 4 < 64 := by omega
    have h2 : a % 4 * 16 < 64 := by omega
    simp only [base64EncodeList, base64DecodeList,
      b64Index_b64Char _ h1, b64Index_b64Char _ h2]
    simp
    omega
  | case3 a b =>
    intro h
    have ha : a < 256 := h a (by simp)
    have hb : b < 256 := h b (by simp)
    have h1 : a / 4 < 64 := by omega
    have h2 : a % 4 * 16 + b / 16 < 64 := by omega
    have h3 : b % 16 * 4 < 64 := by omega
    simp only [base64EncodeList, base64DecodeList,
      b64Index_b64Char _ h1, b64Index_b64Char _ h2, b64Index_b64Char _ h3,
      if_neg (b64Char_ne_pad _ h3)]
    simp
    omega
  | case4 a b c rest ih =>
    intro h
    have ha : a < 256 := h a (by simp)
    have hb : b < 256 := h b (by simp)
    have hc : c < 256 := h c (by simp)
    have h1 : a / 4 < 64 := by omega
    have h2 : a % 4 * 16 + b / 16 < 64 := by omega
    have h3 : b % 16 * 4 + c / 64 < 64 := by omega
    have h4 : c % 64 < 64 := by omega
    have ihr : base64DecodeList (base64EncodeList rest) = some rest :=
      ih (fun x hx => h x (by simp [hx]))
    simp only [base64EncodeList, base64DecodeList,
      b64Index_b64Char _ h1, b64Index_b64Char _ h2, b64Index_b64Char _ h3, b64Index_b64Char _ h4,
      if_neg (b64Char_ne_pad _ h3), if_neg (b64Char_ne_pad _ h4), ihr, Option.map_some']
    simp
    omega

theorem goContains_append_right (s t : String) : goContains (s ++ t) t = true := by
  apply (containsChars_iff _ _).mpr
  exact ⟨s.data, [], by simp⟩

theorem writeMatches_eq (init : String) (results : List Result) :
    writeMatches init results =
      init ++ concatStrings ((results.filter fun r => r.Err.isNone && r.Match).map
        fun r => r.URL ++ "\n") := by
  induction results generalizing init with
  | nil => simp [writeMatches, concatStrings]
  | cons r rs ih =>
    have step : writeMatches init (r :: rs) = writeMatches (aggregateStep init r) rs := rfl
    rw [step, ih]
    cases hE : r.Err with
    | some e => simp [aggregateStep, hE, List.filter_cons]
    | none =>
      cases hM : r.Match
      · simp [aggregateStep, hE, hM, List.filter_cons]
      · simp [aggregateStep, hE, hM, List.filter_cons, concatStrings, String.append_assoc]

theorem accumulateStream_no_done (lines : List String) :
    (∀ l ∈ lines, lineDone l = false) →
      accumulateStream lines = concatStrings (lines.map contentOf) := by
  induction lines with
  | nil => intro _; rfl
  | cons l rest ih =>
    intro h
    have hl : lineDone l = false := h l (by simp)
    have hrest := ih (fun x hx => h x (by simp [hx]))
    by_cases hb : goTrimSpace l = ""
    · have hpc : parseChunk "" = none := rfl
      have hco : contentOf l = "" := by simp [contentOf, hb, hpc]
      simp [accumulateStream, hb, concatStrings, hco, hrest]
    · cases hp : parseChunk (goTrimSpace l) with
      | none =>
        have hco : contentOf l = "" := by simp [contentOf, hp]
        simp [accumulateStream, hb, hp, concatStrings, hco, hrest]
      | some fields =>
        have hdone : chunkDone fields = false := by
          have h' := hl
          simp only [lineDone, hp] at h'
          exact h'
        have hco : contentOf l = chunkContent fields := by simp [contentOf, hp]
        simp [accumulateStream, hb, hp, hdone, concatStrings, hco, hrest]

/-! ## Claim theorems -/

/-- C1: for every job list, every concurrency `C ≥ 1`, and every schedule
handing each dispatched job to exactly one worker, the pool emits exactly
one result per job — the emitted stream is a permutation of the per-job
results, so no job is dropped or double-counted — and every emitted result
is an error, a match, or a non-matching success. -/
theorem C1_pool_one_result_per_job {Img : Type} (env : Env Img) (baseIcon : String)
    (C : Nat) (schedule : List (List Job)) (jobs : List Job)
    (_hC : 1 ≤ C) (_hlen : schedule.length = C)
    (hsched : List.Perm schedule.flatten jobs) :
    (poolRun env baseIcon schedule).length = jobs.length ∧
      List.Perm (poolRun env baseIcon schedule) (jobs.map (processJob env baseIcon)) ∧
      ∀ r ∈ poolRun env baseIcon schedule,
        r.Err ≠ none ∨ (r.Err = none ∧ r.Match = true) ∨
          (r.Err = none ∧ r.Match = false) := by
  have key : poolRun env baseIcon schedule =
      schedule.flatten.map (processJob env baseIcon) := by
    unfold poolRun workerRun
    rw [List.map_flatten]
  have hp : List.Perm (poolRun env baseIcon schedule)
      (jobs.map (processJob env baseIcon)) := by
    rw [key]; exact hsched.map _
  refine ⟨by simpa using hp.length_eq, hp, ?_⟩
  intro r _
  cases hE : r.Err <;> cases hM : r.Match <;> simp [hE, hM]

/-- Witness for C1 at a concrete two-worker schedule of two jobs. -/
theorem C1_pool_one_result_per_job_witness :
    (poolRun (⟨⟨fun _ => none, fun _ => []⟩, fun _ => ImgFetchOutcome.transportErr "down",
        fun _ _ => ChatOutcome.transportErr "down"⟩ : Env Unit) "base"
      [[⟨"y.com"⟩], [⟨"x.com"⟩]]).length = 2 :=
  (C1_pool_one_result_per_job
    (⟨⟨fun _ => none, fun _ => []⟩, fun _ => ImgFetchOutcome.transportErr "down",
      fun _ _ => ChatOutcome.transportErr "down"⟩ : Env Unit)
    "base" 2 [[⟨"y.com"⟩], [⟨"x.com"⟩]] [⟨"x.com"⟩, ⟨"y.com"⟩]
    (by omega) rfl (by decide)).1

/-- C2: the compare loop splits the body on newlines, skips blank and
unparseable lines, concatenates message contents in line order, and stops at
the first `done:true` record: the spec's four-line body splits as stated,
reassembles to "Yes" whatever lines follow the done record (so the trailing
garbage line is never parsed), and classifies as a match; in general a line
whose trimmed text fails to parse as a JSON object is skipped with no
effect. -/
theorem C2_stream_reassembly :
    goSplitNewline c2Body = [c2Line1, c2Line2, c2Line3, "extra-garbage"] ∧
      accumulateStream (goSplitNewline c2Body) = "Yes" ∧
      compareFaviconsChatAPI (.response 200 c2Body) = .ok true ∧
      (∀ rest : List String,
        accumulateStream (c2Line1 :: c2Line2 :: c2Line3 :: rest) = "Yes") ∧
      (∀ line rest, parseChunk (goTrimSpace line) = none →
        accumulateStream (line :: rest) = accumulateStream rest) := by
  refine ⟨by decide, by decide, rfl, fun rest => rfl, ?_⟩
  intro line rest hp
  by_cases hb : goTrimSpace line = ""
  · simp [accumulateStream, hb]
  · simp [accumulateStream, hb, hp]

/-- Witness for C2's skip rule at the malformed line. -/
theorem C2_stream_reassembly_witness :
    accumulateStream [c2Line2] = accumulateStream [] :=
  C2_stream_reassembly.2.2.2.2 c2Line2 [] rfl

/-- C3: the verdict classifier returns true iff the accumulated text contains
"Yes" as a case-sensitive substring; a text with only the negative token, the
wrong case, or no token at all classifies as non-match. -/
theorem C3_classifier_contains_Yes :
    (∀ s : String, classifyAnswer s = true ↔
        ∃ pre post : String, s = pre ++ "Yes" ++ post) ∧
      classifyAnswer "No" = false ∧ classifyAnswer "yes" = false ∧
      classifyAnswer "" = false ∧ classifyAnswer "Yes, same brand" = true := by
  refine ⟨?_, by decide, by decide, by decide, by decide⟩
  intro s
  rw [classifyAnswer, goContains, containsChars_iff]
  constructor
  · rintro ⟨pre, post, hd⟩
    refine ⟨⟨pre⟩, ⟨post⟩, ?_⟩
    apply String.ext
    simpa using hd
  · rintro ⟨pre, post, rfl⟩
    exact ⟨pre.data, post.data, by simp⟩

/-- C4 counterexample: with configured model "m:latest:latest" and available
list ["m:latest"], the spec's rule (equal exactly, or equal after stripping a
":latest" suffix from either side) succeeds, but the code's check fails: in
that branch the code compares both names with ":latest" stripped from each,
not the configured name stripped once against the listed name. -/
theorem C4_counterexample :
    specModelAvailable "m:latest:latest" ["m:latest"] = true ∧
      checkModelFound "m:latest:latest" ["m:latest"] = false := by decide

/-- C4 (amended): the availability check succeeds iff some available name
equals the configured name, or ends in ":latest" and equals it once that
suffix is stripped, or — when the configured name itself ends in ":latest" —
equals it after stripping ":latest" from both sides; in particular
"gemma3:4b" matches "gemma3:4b:latest" and "gemma3:4b", while "gemma3:9b"
matches neither. -/
theorem C4_model_check_rule :
    (∀ config names, checkModelFound config names = true ↔
      ∃ n ∈ names, n = config ∨
        (goHasSuffix n ":latest" = true ∧ goTrimSuffix n ":latest" = config) ∨
        (goHasSuffix config ":latest" = true ∧
          goTrimSuffix config ":latest" = goTrimSuffix n ":latest")) ∧
      checkModelFound "gemma3:4b" ["gemma3:4b:latest"] = true ∧
      checkModelFound "gemma3:4b" ["gemma3:4b"] = true ∧
      checkModelFound "gemma3:9b" ["gemma3:4b:latest", "gemma3:4b"] = false := by
  refine ⟨?_, by decide, by decide, by decide⟩
  intro config names
  simp [checkModelFound, List.any_eq_true, modelNameMatches, or_assoc]

/-- C5: jobs come from newline-split, trimmed, non-blank lines with the
favicon heuristic applied: the spec's four-line input yields exactly the
three stated job URLs, a blank line yields no job, and every non-blank line
yields exactly one job for its heuristic-adjusted URL. -/
theorem C5_job_construction :
    buildJobs "a.com\nb.com/\n\nc.com/logo.png" =
        [⟨"a.com/favicon.ico"⟩, ⟨"b.com/favicon.ico"⟩, ⟨"c.com/logo.png"⟩] ∧
      (∀ l rest, goTrimSpace l = "" → jobsFromLines (l :: rest) = jobsFromLines rest) ∧
      (∀ l rest, goTrimSpace l ≠ "" →
        jobsFromLines (l :: rest) =
          ⟨applyFaviconHeuristic (goTrimSpace l)⟩ :: jobsFromLines rest) := by
  refine ⟨by decide, ?_, ?_⟩ <;> intro l rest h <;> simp [jobsFromLines, h]

/-- Witness for C5's blank-skip and dispatch rules at concrete lines. -/
theorem C5_job_construction_witness :
    jobsFromLines ["  ", "x.com"] = jobsFromLines ["x.com"] ∧
      jobsFromLines ["x.com"] = [⟨applyFaviconHeuristic (goTrimSpace "x.com")⟩] :=
  ⟨C5_job_construction.2.1 "  " ["x.com"] (by decide),
   C5_job_construction.2.2 "x.com" [] (by decide)⟩

/-- C6: a fetch answered with any HTTP status other than 200 (e.g. 404) makes
`DownloadImageAsBase64` fail with an error quoting the status code, the
worker emits a failed result for that candidate alone, and the remaining
jobs are processed unchanged. -/
theorem C6_bad_status_fails_single_job {Img : Type} (env : Env Img)
    (baseIcon url : String) (status : Nat) (body : List Nat) (jobs : List Job)
    (hs : status ≠ 200) (hf : env.fetch url = .response status body) :
    downloadImageAsBase64 env.codec url (env.fetch url) =
        .error ("bad status for " ++ url ++ ": " ++ toString status) ∧
      goContains ("bad status for " ++ url ++ ": " ++ toString status)
        (toString status) = true ∧
      workerRun env baseIcon (⟨url⟩ :: jobs) =
        ⟨url, false, some ("bad status for " ++ url ++ ": " ++ toString status)⟩ ::
          workerRun env baseIcon jobs := by
  have hdl : downloadImageAsBase64 env.codec url (env.fetch url) =
      .error ("bad status for " ++ url ++ ": " ++ toString status) := by
    rw [hf]; simp [downloadImageAsBase64, hs]
  refine ⟨hdl, goContains_append_right _ _, ?_⟩
  simp [workerRun, processJob, hdl]

/-- Witness for C6 at a concrete 404 response. -/
theorem C6_bad_status_fails_single_job_witness :
    workerRun (⟨⟨fun _ => none, fun _ => []⟩, fun _ => ImgFetchOutcome.response 404 [],
        fun _ _ => ChatOutcome.transportErr "down"⟩ : Env Unit) "base" [⟨"u.com"⟩] =
      [⟨"u.com", false, some ("bad status for " ++ "u.com" ++ ": " ++ toString 404)⟩] :=
  (C6_bad_status_fails_single_job
    (⟨⟨fun _ => none, fun _ => []⟩, fun _ => ImgFetchOutcome.response 404 [],
      fun _ _ => ChatOutcome.transportErr "down"⟩ : Env Unit)
    "base" "u.com" 404 [] [] (by decide) rfl).2.2

/-- C7: when the fetched bytes decode as PNG, the produced payload is the
base64 of the original bytes verbatim — and that base64 decodes back to
exactly the fetched bytes — while any other detected format is re-encoded
as PNG before base64 encoding. -/
theorem C7_png_bytes_reused {Img : Type} (codec : ImageCodec Img) (url : String)
    (data : List Nat) (img : Img) :
    (codec.decode data = some ("png", img) →
      downloadImageAsBase64 codec url (.response 200 data) = .ok (base64Encode data)) ∧
      ((∀ x ∈ data, x < 256) → base64Decode (base64Encode data) = some data) ∧
      (∀ format, codec.decode data = some (format, img) → format ≠ "png" →
        downloadImageAsBase64 codec url (.response 200 data) =
          .ok (base64Encode (codec.pngEncode img))) := by
  refine ⟨?_, base64_roundtrip data, ?_⟩
  · intro h
    simp [downloadImageAsBase64, h]
  · intro format h hne
    simp [downloadImageAsBase64, h, hne]

/-- Witness for C7 with a trivial codec that reports PNG. -/
theorem C7_png_bytes_reused_witness :
    downloadImageAsBase64 (⟨fun _ => some ("png", ()), fun _ => []⟩ : ImageCodec Unit)
        "u.com" (.response 200 [137, 80, 78, 71]) = .ok (base64Encode [137, 80, 78, 71]) ∧
      base64Decode (base64Encode [137, 80, 78, 71]) = some [137, 80, 78, 71] :=
  ⟨(C7_png_bytes_reused (⟨fun _ => some ("png", ()), fun _ => []⟩ : ImageCodec Unit)
      "u.com" [137, 80, 78, 71] ()).1 rfl,
   (C7_png_bytes_reused (⟨fun _ => some ("png", ()), fun _ => []⟩ : ImageCodec Unit)
      "u.com" [137, 80, 78, 71] ()).2.1 (by decide)⟩

/-- C8 counterexample: an output file holding "old.com\n" before the run
holds only "m.com\n" after a run with one match — `os.Create` truncates, so
pre-existing content is not preserved and the write is not append-only. -/
theorem C8_counterexample :
    runOutputFile "old.com\n" [⟨"m.com", true, none⟩] = "m.com\n" ∧
      runOutputFile "old.com\n" [⟨"m.com", true, none⟩] ≠ "old.com\n" ++ "m.com\n" := by
  decide

/-- C8 (amended): with an output file configured, the file is created anew —
pre-existing content is truncated away, not preserved — and then holds
exactly the matched URLs, one line each with no other formatting, in arrival
order. -/
theorem C8_output_truncate_then_matched_lines (preExisting : String)
    (results : List Result) :
    runOutputFile preExisting results =
        concatStrings ((results.filter fun r => r.Err.isNone && r.Match).map
          fun r => r.URL ++ "\n") ∧
      runOutputFile preExisting results = runOutputFile "" results := by
  constructor
  · have step : runOutputFile preExisting results = writeMatches "" results := rfl
    rw [step, writeMatches_eq]
    simp
  · rfl

/-- C9: `CompareFaviconsChatAPI` never inspects the HTTP status of the
/api/chat response: every arrived response — whatever its status code,
including non-200 — yields `.ok` of the body classification and never an
error; the verdict is identical across all status codes. -/
theorem C9_compare_ignores_status :
    (∀ status body, compareFaviconsChatAPI (.response status body) =
        .ok (classifyAnswer (accumulateStream (goSplitNewline body)))) ∧
      (∀ s₁ s₂ body, compareFaviconsChatAPI (.response s₁ body) =
        compareFaviconsChatAPI (.response s₂ body)) ∧
      compareFaviconsChatAPI (.response 500 c2Body) = .ok true :=
  ⟨fun _ _ => rfl, fun _ _ _ => rfl, rfl⟩

/-- C10: when no line of the body parses to a chunk with `done:true`, the
loop consumes every line — the accumulator is the concatenation of every
line's content — and the compare still returns a normal `.ok` verdict,
match iff that full text contains "Yes"; a missing termination signal is
not a failure. -/
theorem C10_missing_done_not_a_failure (status : Nat) (body : String)
    (h : ∀ l ∈ goSplitNewline body, lineDone l = false) :
    accumulateStream (goSplitNewline body) =
        concatStrings ((goSplitNewline body).map contentOf) ∧
      compareFaviconsChatAPI (.response status body) =
        .ok (classifyAnswer (concatStrings ((goSplitNewline body).map contentOf))) := by
  have ha := accumulateStream_no_done (goSplitNewline body) h
  exact ⟨ha, by simp [compareFaviconsChatAPI, ha]⟩

/-- Witness for C10 at a two-chunk body with no done record. -/
theorem C10_missing_done_not_a_failure_witness :
    compareFaviconsChatAPI (.response 200 c10Body) =
      .ok (classifyAnswer (concatStrings ((goSplitNewline c10Body).map contentOf))) :=
  (C10_missing_done_not_a_failure 200 c10Body (by decide)).2

end Favlens
